import Mathlib

/-!
Shallow embedding of the Stellar HTLC escrow contract
(src/contracts/stellar/src/lib.rs), a Soroban smart contract.

Modelling conventions:
- `Address` values are modelled as `Nat`.
- `Bytes` and `String` values (secrets, hashes, order ids) are byte
  sequences, modelled as `List Nat`.
- `i128` amounts are modelled as `Int`; `u64` timestamps as `Nat`.
- The host environment (ledger clock, keccak256 oracle, contract address)
  is a `ChainEnv` record: `env.ledger().timestamp()` becomes `env.now`,
  `env.crypto().keccak256` becomes `env.keccak256`,
  `env.current_contract_address()` becomes `env.contractAddr`.
- Persistent storage is an association list keyed by byte sequences, with
  `set` prepending (newest binding wins), matching single-key get/set.
- Token balances form an association list keyed by (token, holder).
- Each contract function is translated to a pure function returning its
  `Result` together with the ordered list of external effects (storage
  writes and token transfers) it performs, in source order; applying the
  effects to a state yields the post-state.
-/

namespace HTLC

/-- The error enumeration of the contract (`HTLCError` in lib.rs). -/
inductive HTLCError where
  | EscrowNotFound
  | AlreadyWithdrawn
  | AlreadyCancelled
  | InvalidSecret
  | TimelockNotExpired
  | UnauthorizedAccess
  | InsufficientBalance
  | InvalidTimelock
deriving DecidableEq, Repr

/-- The `Escrow` record stored by the contract. -/
structure Escrow where
  sender : Nat
  receiver : Nat
  amount : Int
  secret_hash : List Nat
  timelock : Nat
  token_address : Nat
  order_id : List Nat
  withdrawn : Bool
  cancelled : Bool
  created_at : Nat
deriving DecidableEq, Repr

/-- The host environment a single contract invocation sees. -/
structure ChainEnv where
  now : Nat
  keccak256 : List Nat → List Nat
  contractAddr : Nat

/-- An external effect performed by a contract call, in source order:
a persistent-storage write or a token transfer. -/
inductive Effect where
  | setRecord (key : List Nat) (e : Escrow)
  | transferTok (token fromAddr toAddr : Nat) (amount : Int)
deriving DecidableEq, Repr

/-- Lookup in the persistent store (newest binding wins). -/
def storeGet : List (List Nat × Escrow) → List Nat → Option Escrow
  | [], _ => none
  | (k, e) :: rest, key => if k = key then some e else storeGet rest key

/-- Token balance of a holder (zero when no entry is present). -/
def balGet : List ((Nat × Nat) × Int) → Nat → Nat → Int
  | [], _, _ => 0
  | ((t, a), v) :: rest, token, addr =>
      if t = token ∧ a = addr then v else balGet rest token addr

/-- The ledger state: persistent escrow store plus token balances. -/
structure LedgerState where
  store : List (List Nat × Escrow)
  balances : List ((Nat × Nat) × Int)
deriving DecidableEq, Repr

/-- Apply one external effect to the ledger state. -/
def applyEffect (st : LedgerState) : Effect → LedgerState
  | .setRecord k e => { st with store := (k, e) :: st.store }
  | .transferTok token fromAddr toAddr amt =>
      let b1 := ((token, fromAddr), balGet st.balances token fromAddr - amt) :: st.balances
      let b2 := ((token, toAddr), balGet b1 token toAddr + amt) :: b1
      { st with balances := b2 }

/-- Apply a list of effects in order. -/
def applyEffects (st : LedgerState) (effs : List Effect) : LedgerState :=
  effs.foldl applyEffect st

/-- `create_escrow` from lib.rs: validates the timelock, computes the
identifier as keccak256 of the order id bytes, checks the sender balance,
transfers the amount into contract custody, then persists the new record. -/
def create_escrow (env : ChainEnv) (st : LedgerState)
    (sender receiver : Nat) (amount : Int) (secret_hash : List Nat)
    (timelock : Nat) (token_address : Nat) (order_id : List Nat) :
    Except HTLCError (List Nat) × List Effect :=
  let current_time := env.now
  if timelock ≤ current_time then
    (Except.error HTLCError.InvalidTimelock, [])
  else
    let escrow_id := env.keccak256 order_id
    let sender_balance := balGet st.balances token_address sender
    if sender_balance < amount then
      (Except.error HTLCError.InsufficientBalance, [])
    else
      let escrow : Escrow :=
        { sender := sender, receiver := receiver, amount := amount,
          secret_hash := secret_hash, timelock := timelock,
          token_address := token_address, order_id := order_id,
          withdrawn := false, cancelled := false,
          created_at := current_time }
      (Except.ok escrow_id,
        [Effect.transferTok token_address sender env.contractAddr amount,
         Effect.setRecord escrow_id escrow])

/-- `withdraw` from lib.rs: loads the record, rejects resolved records,
verifies the secret hash, verifies the receiver, then marks the record
withdrawn, persists it, and transfers the amount to the receiver. -/
def withdraw (env : ChainEnv) (st : LedgerState)
    (escrow_id : List Nat) (secret : List Nat) (receiver : Nat) :
    Except HTLCError Unit × List Effect :=
  match storeGet st.store escrow_id with
  | none => (Except.error HTLCError.EscrowNotFound, [])
  | some escrow =>
    if escrow.withdrawn then
      (Except.error HTLCError.AlreadyWithdrawn, [])
    else if escrow.cancelled then
      (Except.error HTLCError.AlreadyCancelled, [])
    else if env.keccak256 secret ≠ escrow.secret_hash then
      (Except.error HTLCError.InvalidSecret, [])
    else if receiver ≠ escrow.receiver then
      (Except.error HTLCError.UnauthorizedAccess, [])
    else
      (Except.ok (),
        [Effect.setRecord escrow_id { escrow with withdrawn := true },
         Effect.transferTok escrow.token_address env.contractAddr receiver escrow.amount])

/-- `cancel` from lib.rs: loads the record, rejects resolved records,
requires the timelock to have expired, verifies the sender, then marks the
record cancelled, persists it, and refunds the amount to the sender. -/
def cancel (env : ChainEnv) (st : LedgerState)
    (escrow_id : List Nat) (sender : Nat) :
    Except HTLCError Unit × List Effect :=
  match storeGet st.store escrow_id with
  | none => (Except.error HTLCError.EscrowNotFound, [])
  | some escrow =>
    if escrow.withdrawn then
      (Except.error HTLCError.AlreadyWithdrawn, [])
    else if escrow.cancelled then
      (Except.error HTLCError.AlreadyCancelled, [])
    else if env.now < escrow.timelock then
      (Except.error HTLCError.TimelockNotExpired, [])
    else if sender ≠ escrow.sender then
      (Except.error HTLCError.UnauthorizedAccess, [])
    else
      (Except.ok (),
        [Effect.setRecord escrow_id { escrow with cancelled := true },
         Effect.transferTok escrow.token_address env.contractAddr sender escrow.amount])

/-- `get_escrow` from lib.rs: pure lookup. -/
def get_escrow (st : LedgerState) (escrow_id : List Nat) : Option Escrow :=
  storeGet st.store escrow_id

/-- `verify_secret` from lib.rs: recomputes the hash of the secret and
compares it to the stored commitment; false when the record is absent. -/
def verify_secret (env : ChainEnv) (st : LedgerState)
    (escrow_id secret : List Nat) : Bool :=
  match get_escrow st escrow_id with
  | some escrow => decide (env.keccak256 secret = escrow.secret_hash)
  | none => false

/-- `can_cancel` from lib.rs: true when the record exists, is unresolved,
and the current time has reached the timelock; false when absent. -/
def can_cancel (env : ChainEnv) (st : LedgerState) (escrow_id : List Nat) : Bool :=
  match get_escrow st escrow_id with
  | some escrow =>
      !escrow.withdrawn && !escrow.cancelled && decide (env.now ≥ escrow.timelock)
  | none => false

/-- One invocation of a mutating contract entry point, with the host
environment it runs under. -/
inductive Op where
  | createOp (env : ChainEnv) (sender receiver : Nat) (amount : Int)
      (secret_hash : List Nat) (timelock : Nat) (token_address : Nat)
      (order_id : List Nat)
  | withdrawOp (env : ChainEnv) (escrow_id secret : List Nat) (receiver : Nat)
  | cancelOp (env : ChainEnv) (escrow_id : List Nat) (sender : Nat)

/-- The effects an operation performs from a given state. -/
def opEffects (st : LedgerState) : Op → List Effect
  | .createOp env s r a sh tl tok oid => (create_escrow env st s r a sh tl tok oid).2
  | .withdrawOp env id sec rcv => (withdraw env st id sec rcv).2
  | .cancelOp env id snd => (cancel env st id snd).2

/-- State transition of one operation. -/
def stepOp (st : LedgerState) (op : Op) : LedgerState :=
  applyEffects st (opEffects st op)

/-- State after a sequence of operations. -/
def runOps (st : LedgerState) (ops : List Op) : LedgerState :=
  ops.foldl stepOp st

/-- An operation is a creation whose computed identifier is `id`. -/
def opCreates (op : Op) (id : List Nat) : Prop :=
  match op with
  | .createOp env _ _ _ _ _ _ oid => env.keccak256 oid = id
  | _ => False

/-- No stored record has both terminal flags set. -/
def exclusiveFlags (st : LedgerState) : Prop :=
  ∀ k e, storeGet st.store k = some e → ¬(e.withdrawn = true ∧ e.cancelled = true)

/-- The record at `id` exists and is marked withdrawn. -/
def wSet (st : LedgerState) (id : List Nat) : Prop :=
  ∃ e, storeGet st.store id = some e ∧ e.withdrawn = true

/-- The record at `id` exists and is marked cancelled. -/
def cSet (st : LedgerState) (id : List Nat) : Prop :=
  ∃ e, storeGet st.store id = some e ∧ e.cancelled = true

/-- The record at `id` exists, is marked cancelled and not withdrawn. -/
def cOnly (st : LedgerState) (id : List Nat) : Prop :=
  ∃ e, storeGet st.store id = some e ∧ e.withdrawn = false ∧ e.cancelled = true

/-! Concrete fixtures used by witnesses and counterexamples. -/

/-- A concrete stand-in for the hash oracle: the identity on byte lists. -/
def idHash : List Nat → List Nat := fun b => b

/-- A concrete environment at time 0. -/
def envW : ChainEnv := { now := 0, keccak256 := idHash, contractAddr := 99 }

/-- A concrete environment at time 50 (past the fixture timelock). -/
def envL : ChainEnv := { now := 50, keccak256 := idHash, contractAddr := 99 }

/-- A concrete unresolved escrow record: sender 1, receiver 2, amount 5,
secret hash [7], timelock 10, token 3, order id [1]. -/
def escW : Escrow :=
  { sender := 1, receiver := 2, amount := 5, secret_hash := [7], timelock := 10,
    token_address := 3, order_id := [1], withdrawn := false, cancelled := false,
    created_at := 0 }

/-- A concrete state holding `escW` under key [1]; sender 1 owns 100 of token 3. -/
def stW : LedgerState := { store := [([1], escW)], balances := [((3, 1), 100)] }

/-- An empty ledger state with sender 1 owning 100 of token 3. -/
def stE : LedgerState := { store := [], balances := [((3, 1), 100)] }

/-- Claim C5: create_escrow fails with InvalidTimelock if and only if the
supplied timelock is at most the current ledger time; in particular the
boundary case timelock = now fails. -/
theorem C5_invalid_timelock_iff (env : ChainEnv) (st : LedgerState)
    (sender receiver : Nat) (amount : Int) (secret_hash : List Nat)
    (timelock token_address : Nat) (order_id : List Nat) :
    ((create_escrow env st sender receiver amount secret_hash timelock
        token_address order_id).1 = Except.error HTLCError.InvalidTimelock ↔
      timelock ≤ env.now) ∧
    (timelock = env.now →
      (create_escrow env st sender receiver amount secret_hash timelock
        token_address order_id).1 = Except.error HTLCError.InvalidTimelock) := by
  simp only [create_escrow]
  split_ifs with h1 h2 <;> simp_all <;> omega

/-- Witness for C5 at a concrete input: with now = 10 and timelock = 10 the
creation is rejected with InvalidTimelock. -/
theorem C5_invalid_timelock_iff_witness :
    ((create_escrow { now := 10, keccak256 := idHash, contractAddr := 99 } stE
        1 2 5 [7] 10 3 [1]).1 = Except.error HTLCError.InvalidTimelock ↔
      10 ≤ 10) ∧
    (10 = 10 →
      (create_escrow { now := 10, keccak256 := idHash, contractAddr := 99 } stE
        1 2 5 [7] 10 3 [1]).1 = Except.error HTLCError.InvalidTimelock) :=
  C5_invalid_timelock_iff { now := 10, keccak256 := idHash, contractAddr := 99 }
    stE 1 2 5 [7] 10 3 [1]

/-- Claim C8: can_cancel is true iff a record with that identifier exists,
is unresolved, and the current time has reached its timelock; when the
record is absent it returns false rather than an error. -/
theorem C8_can_cancel_iff (env : ChainEnv) (st : LedgerState) (id : List Nat) :
    (can_cancel env st id = true ↔
      ∃ e, get_escrow st id = some e ∧ e.withdrawn = false ∧
        e.cancelled = false ∧ e.timelock ≤ env.now) ∧
    (get_escrow st id = none → can_cancel env st id = false) := by
  cases hget : get_escrow st id with
  | none => simp [can_cancel, hget]
  | some e => simp [can_cancel, hget, ge_iff_le, and_assoc]

/-- Witness for C8 at a concrete input: at time 50 the fixture escrow
(timelock 10, unresolved) is cancellable. -/
theorem C8_can_cancel_iff_witness :
    (can_cancel envL stW [1] = true ↔
      ∃ e, get_escrow stW [1] = some e ∧ e.withdrawn = false ∧
        e.cancelled = false ∧ e.timelock ≤ envL.now) ∧
    (get_escrow stW [1] = none → can_cancel envL stW [1] = false) :=
  C8_can_cancel_iff envL stW [1]

/-- Claim C9: verify_secret is true iff a record with that identifier exists
and the hash of the supplied secret equals its stored commitment, with no
condition on the withdrawn or cancelled flags; on an absent identifier it
returns false, never an error. -/
theorem C9_verify_secret_iff (env : ChainEnv) (st : LedgerState)
    (id secret : List Nat) :
    (verify_secret env st id secret = true ↔
      ∃ e, get_escrow st id = some e ∧ env.keccak256 secret = e.secret_hash) ∧
    (get_escrow st id = none → verify_secret env st id secret = false) := by
  cases hget : get_escrow st id with
  | none => simp [verify_secret, hget]
  | some e => simp [verify_secret, hget]

/-- Witness for C9 at a concrete input: secret [7] verifies against the
fixture escrow whose commitment is idHash [7]. -/
theorem C9_verify_secret_iff_witness :
    (verify_secret envW stW [1] [7] = true ↔
      ∃ e, get_escrow stW [1] = some e ∧ envW.keccak256 [7] = e.secret_hash) ∧
    (get_escrow stW [1] = none → verify_secret envW stW [1] [7] = false) :=
  C9_verify_secret_iff envW stW [1] [7]

/-- Claim C3: on an existing, unresolved escrow, withdraw succeeds iff the
hash of the secret equals the stored commitment and the claimed receiver
equals the stored receiver; a wrong secret yields InvalidSecret, and a
correct secret with a wrong receiver yields UnauthorizedAccess, so the
secret check precedes the receiver check. -/
theorem C3_withdraw_conditions (env : ChainEnv) (st : LedgerState)
    (id secret : List Nat) (rcv : Nat) (e : Escrow)
    (hget : storeGet st.store id = some e)
    (hw : e.withdrawn = false) (hc : e.cancelled = false) :
    ((withdraw env st id secret rcv).1 = Except.ok () ↔
      env.keccak256 secret = e.secret_hash ∧ rcv = e.receiver) ∧
    (env.keccak256 secret ≠ e.secret_hash →
      (withdraw env st id secret rcv).1 = Except.error HTLCError.InvalidSecret) ∧
    (env.keccak256 secret = e.secret_hash → rcv ≠ e.receiver →
      (withdraw env st id secret rcv).1 = Except.error HTLCError.UnauthorizedAccess) := by
  simp only [withdraw, hget, hw, hc]
  split_ifs with h1 h2 <;> simp_all

/-- Witness for C3 at a concrete input: on the fixture escrow, withdrawing
with secret [7] as receiver 2 succeeds. -/
theorem C3_withdraw_conditions_witness :
    ((withdraw envW stW [1] [7] 2).1 = Except.ok () ↔
      envW.keccak256 [7] = escW.secret_hash ∧ 2 = escW.receiver) ∧
    (envW.keccak256 [7] ≠ escW.secret_hash →
      (withdraw envW stW [1] [7] 2).1 = Except.error HTLCError.InvalidSecret) ∧
    (envW.keccak256 [7] = escW.secret_hash → 2 ≠ escW.receiver →
      (withdraw envW stW [1] [7] 2).1 = Except.error HTLCError.UnauthorizedAccess) :=
  C3_withdraw_conditions envW stW [1] [7] 2 escW rfl rfl rfl

/-- Claim C4: on an existing, unresolved escrow, cancel succeeds iff the
current time has reached the timelock and the claimed sender equals the
stored sender; before the deadline it fails with TimelockNotExpired no
matter who the claimed sender is, so the timelock check precedes the
sender check. -/
theorem C4_cancel_conditions (env : ChainEnv) (st : LedgerState)
    (id : List Nat) (snd : Nat) (e : Escrow)
    (hget : storeGet st.store id = some e)
    (hw : e.withdrawn = false) (hc : e.cancelled = false) :
    ((cancel env st id snd).1 = Except.ok () ↔
      e.timelock ≤ env.now ∧ snd = e.sender) ∧
    (env.now < e.timelock →
      (cancel env st id snd).1 = Except.error HTLCError.TimelockNotExpired) := by
  simp only [cancel, hget, hw, hc]
  split_ifs with h1 h2 <;> simp_all

/-- Witness for C4 at a concrete input: at time 50 (past the timelock 10)
sender 1 cancels the fixture escrow. -/
theorem C4_cancel_conditions_witness :
    ((cancel envL stW [1] 1).1 = Except.ok () ↔
      escW.timelock ≤ envL.now ∧ 1 = escW.sender) ∧
    (envL.now < escW.timelock →
      (cancel envL stW [1] 1).1 = Except.error HTLCError.TimelockNotExpired) :=
  C4_cancel_conditions envL stW [1] 1 escW rfl rfl rfl

/-- The effect list of the witness creation: the custody transfer followed
by the storage write of the new record. -/
def trW : List Effect :=
  [Effect.transferTok 3 1 99 5, Effect.setRecord [1] escW]

/-- Claim C2: every successful create_escrow returns the identifier
keccak256(order_id), and get_escrow on the post-state at that identifier
returns a record whose fields equal the supplied arguments, with
withdrawn = false and cancelled = false. -/
theorem C2_create_escrow_result (env : ChainEnv) (st : LedgerState)
    (sender receiver : Nat) (amount : Int) (secret_hash : List Nat)
    (timelock token_address : Nat) (order_id : List Nat)
    (idv : List Nat) (tr : List Effect)
    (h : create_escrow env st sender receiver amount secret_hash timelock
      token_address order_id = (Except.ok idv, tr)) :
    idv = env.keccak256 order_id ∧
    get_escrow (applyEffects st tr) idv = some
      { sender := sender, receiver := receiver, amount := amount,
        secret_hash := secret_hash, timelock := timelock,
        token_address := token_address, order_id := order_id,
        withdrawn := false, cancelled := false, created_at := env.now } := by
  simp only [create_escrow] at h
  split_ifs at h with h1 h2
  · simp at h
  · simp at h
  · simp only [Prod.mk.injEq, Except.ok.injEq] at h
    obtain ⟨hid, htr⟩ := h
    subst hid htr
    exact ⟨rfl, by simp [get_escrow, applyEffects, applyEffect, storeGet]⟩

/-- Witness for C2 at a concrete input: creating on the empty state with
order id [1] returns identifier [1] and stores the fixture record. -/
theorem C2_create_escrow_result_witness :
    [1] = envW.keccak256 [1] ∧
    get_escrow (applyEffects stE trW) [1] = some escW :=
  C2_create_escrow_result envW stE 1 2 5 [7] 10 3 [1] [1] trW rfl

/-- Claim C6: in both withdraw and cancel, every successful execution
performs exactly two effects, the storage write that persists the record
with its resolution flag set followed by the token transfer; the transfer
never precedes the persisted state change. -/
theorem C6_commit_before_transfer (env : ChainEnv) (st : LedgerState)
    (id secret : List Nat) (rcv snd : Nat) :
    ((withdraw env st id secret rcv).1 = Except.ok () →
      ∃ e2, e2.withdrawn = true ∧
        (withdraw env st id secret rcv).2 =
          [Effect.setRecord id e2,
           Effect.transferTok e2.token_address env.contractAddr rcv e2.amount]) ∧
    ((cancel env st id snd).1 = Except.ok () →
      ∃ e2, e2.cancelled = true ∧
        (cancel env st id snd).2 =
          [Effect.setRecord id e2,
           Effect.transferTok e2.token_address env.contractAddr snd e2.amount]) := by
  constructor
  · intro hok
    simp only [withdraw] at hok ⊢
    cases hget : storeGet st.store id with
    | none => simp [hget] at hok
    | some e =>
        simp only [hget] at hok ⊢
        split_ifs at hok ⊢
        all_goals try simp at hok
        exact ⟨{ e with withdrawn := true }, rfl, rfl⟩
  · intro hok
    simp only [cancel] at hok ⊢
    cases hget : storeGet st.store id with
    | none => simp [hget] at hok
    | some e =>
        simp only [hget] at hok ⊢
        split_ifs at hok ⊢
        all_goals try simp at hok
        exact ⟨{ e with cancelled := true }, rfl, rfl⟩

/-- Witness for C6 at a concrete input: the successful withdraw of the
fixture escrow emits the storage write before the transfer, and so does
the successful cancel at time 50. -/
theorem C6_commit_before_transfer_witness :
    ((withdraw envL stW [1] [7] 2).1 = Except.ok () →
      ∃ e2, e2.withdrawn = true ∧
        (withdraw envL stW [1] [7] 2).2 =
          [Effect.setRecord [1] e2,
           Effect.transferTok e2.token_address envL.contractAddr 2 e2.amount]) ∧
    ((cancel envL stW [1] 1).1 = Except.ok () →
      ∃ e2, e2.cancelled = true ∧
        (cancel envL stW [1] 1).2 =
          [Effect.setRecord [1] e2,
           Effect.transferTok e2.token_address envL.contractAddr 1 e2.amount]) :=
  C6_commit_before_transfer envL stW [1] [7] 2 1

/-- A concrete environment at time 10 with an expired timelock argument 5
used to refute claim C7 as stated. -/
def envT : ChainEnv := { now := 10, keccak256 := idHash, contractAddr := 99 }

/-- Counterexample to claim C7 as stated: with sender balance 100 of
token 3 and amount 200 (balance < amount) but timelock 5 ≤ now 10, the
creation fails with InvalidTimelock, not InsufficientBalance: the timelock
check precedes the balance check. -/
theorem C7_counterexample :
    balGet stE.balances 3 1 < 200 ∧
    (create_escrow envT stE 1 2 200 [7] 5 3 [1]).1 =
      Except.error HTLCError.InvalidTimelock ∧
    (create_escrow envT stE 1 2 200 [7] 5 3 [1]).1 ≠
      Except.error HTLCError.InsufficientBalance :=
  ⟨by decide, rfl, by intro h; simp [create_escrow, envT] at h⟩

/-- Claim C7 as amended: when the timelock is valid (now < timelock) and
the sender balance of the token is below the amount, create_escrow fails
with InsufficientBalance, performs no effects, and leaves the ledger state
unchanged: no record is created and no transfer is performed. -/
theorem C7_insufficient_balance (env : ChainEnv) (st : LedgerState)
    (sender receiver : Nat) (amount : Int) (secret_hash : List Nat)
    (timelock token_address : Nat) (order_id : List Nat)
    (htl : env.now < timelock)
    (hbal : balGet st.balances token_address sender < amount) :
    create_escrow env st sender receiver amount secret_hash timelock
      token_address order_id = (Except.error HTLCError.InsufficientBalance, []) ∧
    applyEffects st (create_escrow env st sender receiver amount secret_hash
      timelock token_address order_id).2 = st := by
  have h : create_escrow env st sender receiver amount secret_hash timelock
      token_address order_id = (Except.error HTLCError.InsufficientBalance, []) := by
    simp only [create_escrow]
    rw [if_neg (by omega), if_pos hbal]
  refine ⟨h, ?_⟩
  rw [h]
  rfl

/-- Witness for C7 (amended) at a concrete input: balance 100 < amount 200
with valid timelock 10 at time 0 yields InsufficientBalance and no effects. -/
theorem C7_insufficient_balance_witness :
    create_escrow envW stE 1 2 200 [7] 10 3 [1] =
      (Except.error HTLCError.InsufficientBalance, []) ∧
    applyEffects stE (create_escrow envW stE 1 2 200 [7] 10 3 [1]).2 = stE :=
  C7_insufficient_balance envW stE 1 2 200 [7] 10 3 [1] (by decide) (by decide)

/-- Counterexample to claim C10 as stated: create_escrow accepts
amount = 0 (the balance check 100 < 0 fails to reject it) and persists a
record whose amount is not strictly positive. -/
theorem C10_counterexample :
    ∃ e, get_escrow (stepOp stE (Op.createOp envW 1 2 0 [7] 10 3 [1])) [1] = some e ∧
      ¬(0 < e.amount) := by
  refine ⟨{ sender := 1, receiver := 2, amount := 0, secret_hash := [7], timelock := 10,
            token_address := 3, order_id := [1], withdrawn := false, cancelled := false,
            created_at := 0 }, ?_, by decide⟩
  rfl

/-- Claim C10 as amended: create_escrow performs no positivity check on
the amount: whenever the timelock is valid and the sender balance is at
least the amount, creation succeeds, even for amount ≤ 0, and the
persisted record carries exactly the supplied amount. -/
theorem C10_amount_unchecked (env : ChainEnv) (st : LedgerState)
    (sender receiver : Nat) (amount : Int) (secret_hash : List Nat)
    (timelock token_address : Nat) (order_id : List Nat)
    (htl : env.now < timelock)
    (hbal : amount ≤ balGet st.balances token_address sender) :
    (create_escrow env st sender receiver amount secret_hash timelock
      token_address order_id).1 = Except.ok (env.keccak256 order_id) ∧
    ∃ e, get_escrow (applyEffects st (create_escrow env st sender receiver amount
        secret_hash timelock token_address order_id).2)
        (env.keccak256 order_id) = some e ∧ e.amount = amount := by
  simp only [create_escrow]
  rw [if_neg (by omega), if_neg (by omega)]
  simp [get_escrow, applyEffects, applyEffect, storeGet]

/-- Witness for C10 (amended) at a concrete input: amount 0 is accepted
and stored as 0. -/
theorem C10_amount_unchecked_witness :
    (create_escrow envW stE 1 2 0 [7] 10 3 [1]).1 = Except.ok (envW.keccak256 [1]) ∧
    ∃ e, get_escrow (applyEffects stE (create_escrow envW stE 1 2 0 [7] 10 3 [1]).2)
        (envW.keccak256 [1]) = some e ∧ e.amount = 0 :=
  C10_amount_unchecked envW stE 1 2 0 [7] 10 3 [1] (by decide) (by decide)

/-! Helper lemmas for the lifecycle invariants. -/

/-- Unfolding lemma for store lookup on a nonempty store. -/
theorem storeGet_cons (k : List Nat) (e : Escrow) (s : List (List Nat × Escrow))
    (key : List Nat) :
    storeGet ((k, e) :: s) key = if k = key then some e else storeGet s key := rfl

/-- Every create_escrow call either fails with no effects, or succeeds and
performs the custody transfer followed by the write of the fresh record. -/
theorem create_effects_cases (env : ChainEnv) (st : LedgerState)
    (s r : Nat) (a : Int) (sh : List Nat) (tl tok : Nat) (oid : List Nat) :
    (∃ err, create_escrow env st s r a sh tl tok oid = (Except.error err, [])) ∨
    create_escrow env st s r a sh tl tok oid =
      (Except.ok (env.keccak256 oid),
       [Effect.transferTok tok s env.contractAddr a,
        Effect.setRecord (env.keccak256 oid)
          { sender := s, receiver := r, amount := a, secret_hash := sh,
            timelock := tl, token_address := tok, order_id := oid,
            withdrawn := false, cancelled := false, created_at := env.now }]) := by
  simp only [create_escrow]
  split_ifs
  all_goals first
    | exact Or.inl ⟨_, rfl⟩
    | exact Or.inr rfl

/-- Every withdraw call either fails with no effects, or succeeds on an
unresolved record with the matching secret and receiver, writing the record
with the withdrawn flag set and then transferring to the receiver. -/
theorem withdraw_effects_cases (env : ChainEnv) (st : LedgerState)
    (id sec : List Nat) (rcv : Nat) :
    (∃ err, withdraw env st id sec rcv = (Except.error err, [])) ∨
    ∃ e, storeGet st.store id = some e ∧ e.withdrawn = false ∧
      e.cancelled = false ∧
      withdraw env st id sec rcv =
        (Except.ok (),
         [Effect.setRecord id { e with withdrawn := true },
          Effect.transferTok e.token_address env.contractAddr rcv e.amount]) := by
  cases hget : storeGet st.store id with
  | none => exact Or.inl ⟨HTLCError.EscrowNotFound, by simp [withdraw, hget]⟩
  | some e =>
      simp only [withdraw, hget]
      split_ifs with h1 h2 h3 h4
      all_goals try exact Or.inl ⟨_, rfl⟩
      exact Or.inr ⟨e, rfl, by simpa using h1, by simpa using h2, rfl⟩

/-- Every cancel call either fails with no effects, or succeeds on an
unresolved record after the timelock, writing the record with the cancelled
flag set and then refunding the sender. -/
theorem cancel_effects_cases (env : ChainEnv) (st : LedgerState)
    (id : List Nat) (snd : Nat) :
    (∃ err, cancel env st id snd = (Except.error err, [])) ∨
    ∃ e, storeGet st.store id = some e ∧ e.withdrawn = false ∧
      e.cancelled = false ∧
      cancel env st id snd =
        (Except.ok (),
         [Effect.setRecord id { e with cancelled := true },
          Effect.transferTok e.token_address env.contractAddr snd e.amount]) := by
  cases hget : storeGet st.store id with
  | none => exact Or.inl ⟨HTLCError.EscrowNotFound, by simp [cancel, hget]⟩
  | some e =>
      simp only [cancel, hget]
      split_ifs with h1 h2 h3 h4
      all_goals try exact Or.inl ⟨_, rfl⟩
      exact Or.inr ⟨e, rfl, by simpa using h1, by simpa using h2, rfl⟩

/-- A withdraw on a record already marked withdrawn fails with
AlreadyWithdrawn. -/
theorem withdraw_on_withdrawn (env : ChainEnv) (st : LedgerState)
    (id sec : List Nat) (rcv : Nat) (e : Escrow)
    (hget : storeGet st.store id = some e) (hw : e.withdrawn = true) :
    (withdraw env st id sec rcv).1 = Except.error HTLCError.AlreadyWithdrawn := by
  simp [withdraw, hget, hw]

/-- A cancel on a record already marked withdrawn fails with
AlreadyWithdrawn. -/
theorem cancel_on_withdrawn (env : ChainEnv) (st : LedgerState)
    (id : List Nat) (snd : Nat) (e : Escrow)
    (hget : storeGet st.store id = some e) (hw : e.withdrawn = true) :
    (cancel env st id snd).1 = Except.error HTLCError.AlreadyWithdrawn := by
  simp [cancel, hget, hw]

/-- A withdraw on a record marked cancelled (and not withdrawn) fails with
AlreadyCancelled. -/
theorem withdraw_on_cancelled (env : ChainEnv) (st : LedgerState)
    (id sec : List Nat) (rcv : Nat) (e : Escrow)
    (hget : storeGet st.store id = some e) (hw : e.withdrawn = false)
    (hc : e.cancelled = true) :
    (withdraw env st id sec rcv).1 = Except.error HTLCError.AlreadyCancelled := by
  simp [withdraw, hget, hw, hc]

/-- A cancel on a record marked cancelled (and not withdrawn) fails with
AlreadyCancelled. -/
theorem cancel_on_cancelled (env : ChainEnv) (st : LedgerState)
    (id : List Nat) (snd : Nat) (e : Escrow)
    (hget : storeGet st.store id = some e) (hw : e.withdrawn = false)
    (hc : e.cancelled = true) :
    (cancel env st id snd).1 = Except.error HTLCError.AlreadyCancelled := by
  simp [cancel, hget, hw, hc]

/-- The store after a successful creation: the fresh record is pushed
after the custody transfer. -/
theorem store_after_create (st : LedgerState) (tok s c : Nat) (a : Int)
    (k : List Nat) (e : Escrow) :
    (applyEffects st [Effect.transferTok tok s c a, Effect.setRecord k e]).store =
      (k, e) :: st.store := rfl

/-- The store after a successful resolution: the flagged record is pushed
before the outgoing transfer. -/
theorem store_after_resolve (st : LedgerState) (k : List Nat) (e : Escrow)
    (tok c to2 : Nat) (a : Int) :
    (applyEffects st [Effect.setRecord k e, Effect.transferTok tok c to2 a]).store =
      (k, e) :: st.store := rfl

/-- If the record at `id` is absent or resolved, any operation that is not
a creation aliasing `id` leaves the binding at `id` unchanged. -/
theorem stepOp_store_stable (st : LedgerState) (op : Op) (id : List Nat)
    (hnc : ¬opCreates op id)
    (hres : ∀ e, storeGet st.store id = some e →
      ¬(e.withdrawn = false ∧ e.cancelled = false)) :
    storeGet (stepOp st op).store id = storeGet st.store id := by
  cases op with
  | createOp env s r a sh tl tok oid =>
      have hnc2 : ¬(env.keccak256 oid = id) := hnc
      rcases create_effects_cases env st s r a sh tl tok oid with ⟨err, h2⟩ | h2
      · simp only [stepOp, opEffects, h2]
        rfl
      · simp only [stepOp, opEffects, h2]
        rw [store_after_create, storeGet_cons, if_neg hnc2]
  | withdrawOp env id2 sec rcv =>
      rcases withdraw_effects_cases env st id2 sec rcv with ⟨err, h2⟩ |
        ⟨e2, hget2, hw2, hc2, h2⟩
      · simp only [stepOp, opEffects, h2]
        rfl
      · by_cases hid : id2 = id
        · subst hid
          exact absurd ⟨hw2, hc2⟩ (hres e2 hget2)
        · simp only [stepOp, opEffects, h2]
          rw [store_after_resolve, storeGet_cons, if_neg hid]
  | cancelOp env id2 snd =>
      rcases cancel_effects_cases env st id2 snd with ⟨err, h2⟩ |
        ⟨e2, hget2, hw2, hc2, h2⟩
      · simp only [stepOp, opEffects, h2]
        rfl
      · by_cases hid : id2 = id
        · subst hid
          exact absurd ⟨hw2, hc2⟩ (hres e2 hget2)
        · simp only [stepOp, opEffects, h2]
          rw [store_after_resolve, storeGet_cons, if_neg hid]

/-- Generic single-step preservation: a record property that rules out the
unresolved state survives any operation that is not a creation aliasing
the same identifier. -/
theorem stepOp_preserve_record (P : Escrow → Prop)
    (hblock : ∀ e, P e → ¬(e.withdrawn = false ∧ e.cancelled = false))
    (st : LedgerState) (op : Op) (id : List Nat)
    (hnc : ¬opCreates op id)
    (h : ∃ e, storeGet st.store id = some e ∧ P e) :
    ∃ e, storeGet (stepOp st op).store id = some e ∧ P e := by
  obtain ⟨e, hget, hPe⟩ := h
  have hstable := stepOp_store_stable st op id hnc (by
    intro e2 hget2
    rw [hget] at hget2
    injection hget2 with h3
    subst h3
    exact hblock e hPe)
  exact ⟨e, hstable.trans hget, hPe⟩

/-- One step preserves mutual exclusion of the terminal flags. -/
theorem stepOp_exclusiveFlags (st : LedgerState) (op : Op)
    (hst : exclusiveFlags st) : exclusiveFlags (stepOp st op) := by
  cases op with
  | createOp env s r a sh tl tok oid =>
      rcases create_effects_cases env st s r a sh tl tok oid with ⟨err, h2⟩ | h2
      · intro key e2 hk
        simp only [stepOp, opEffects, h2] at hk
        exact hst key e2 hk
      · intro key e2 hk
        simp only [stepOp, opEffects, h2] at hk
        rw [store_after_create, storeGet_cons] at hk
        split_ifs at hk with hkey
        · injection hk with h3
          subst h3
          simp
        · exact hst key e2 hk
  | withdrawOp env id2 sec rcv =>
      rcases withdraw_effects_cases env st id2 sec rcv with ⟨err, h2⟩ |
        ⟨eS, hgetS, hwS, hcS, h2⟩
      · intro key e2 hk
        simp only [stepOp, opEffects, h2] at hk
        exact hst key e2 hk
      · intro key e2 hk
        simp only [stepOp, opEffects, h2] at hk
        rw [store_after_resolve, storeGet_cons] at hk
        split_ifs at hk with hkey
        · injection hk with h3
          subst h3
          simp [hcS]
        · exact hst key e2 hk
  | cancelOp env id2 snd =>
      rcases cancel_effects_cases env st id2 snd with ⟨err, h2⟩ |
        ⟨eS, hgetS, hwS, hcS, h2⟩
      · intro key e2 hk
        simp only [stepOp, opEffects, h2] at hk
        exact hst key e2 hk
      · intro key e2 hk
        simp only [stepOp, opEffects, h2] at hk
        rw [store_after_resolve, storeGet_cons] at hk
        split_ifs at hk with hkey
        · injection hk with h3
          subst h3
          simp [hwS]
        · exact hst key e2 hk

/-- Running a sequence of operations preserves mutual exclusion of the
terminal flags. -/
theorem runOps_exclusiveFlags (ops : List Op) (st : LedgerState)
    (hst : exclusiveFlags st) : exclusiveFlags (runOps st ops) := by
  induction ops generalizing st with
  | nil => exact hst
  | cons op ops ih => exact ih (stepOp st op) (stepOp_exclusiveFlags st op hst)

/-- Run-level preservation of a blocking record property along a sequence
with no creation aliasing the identifier. -/
theorem runOps_preserve_record (P : Escrow → Prop)
    (hblock : ∀ e, P e → ¬(e.withdrawn = false ∧ e.cancelled = false))
    (ops : List Op) (st : LedgerState) (id : List Nat)
    (hnc : ∀ op ∈ ops, ¬opCreates op id)
    (h : ∃ e, storeGet st.store id = some e ∧ P e) :
    ∃ e, storeGet (runOps st ops).store id = some e ∧ P e := by
  induction ops generalizing st with
  | nil => exact h
  | cons op ops ih =>
      exact ih (stepOp st op)
        (fun o ho => hnc o (List.mem_cons_of_mem op ho))
        (stepOp_preserve_record P hblock st op id
          (hnc op (List.mem_cons_self op ops)) h)

/-- A successful withdraw leaves the record at its identifier marked
withdrawn. -/
theorem withdraw_ok_wSet (env : ChainEnv) (st : LedgerState)
    (id sec : List Nat) (rcv : Nat)
    (hok : (withdraw env st id sec rcv).1 = Except.ok ()) :
    wSet (stepOp st (Op.withdrawOp env id sec rcv)) id := by
  rcases withdraw_effects_cases env st id sec rcv with ⟨err, h2⟩ |
    ⟨e, hget, hw, hc, h2⟩
  · rw [h2] at hok
    exact absurd hok (by simp)
  · refine ⟨{ e with withdrawn := true }, ?_, rfl⟩
    simp only [stepOp, opEffects, h2]
    rw [store_after_resolve, storeGet_cons, if_pos rfl]

/-- A successful cancel leaves the record at its identifier marked
cancelled and not withdrawn. -/
theorem cancel_ok_cOnly (env : ChainEnv) (st : LedgerState)
    (id : List Nat) (snd : Nat)
    (hok : (cancel env st id snd).1 = Except.ok ()) :
    cOnly (stepOp st (Op.cancelOp env id snd)) id := by
  rcases cancel_effects_cases env st id snd with ⟨err, h2⟩ |
    ⟨e, hget, hw, hc, h2⟩
  · rw [h2] at hok
    exact absurd hok (by simp)
  · refine ⟨{ e with cancelled := true }, ?_, hw, rfl⟩
    simp only [stepOp, opEffects, h2]
    rw [store_after_resolve, storeGet_cons, if_pos rfl]

/-! Concrete trace refuting claim C1 as stated: the contract performs no
duplicate-identifier check, so re-creating with the same order id resets
the flags of an already-withdrawn record. -/

/-- The creation operation of the refuting trace (order id [1]). -/
def opC : Op := Op.createOp envW 1 2 5 [7] 100 3 [1]

/-- State after the first creation. -/
def stA : LedgerState := stepOp stE opC

/-- State after the first (successful) withdraw. -/
def stB : LedgerState := stepOp stA (Op.withdrawOp envW [1] [7] 2)

/-- State after re-creating with the same order id. -/
def stC : LedgerState := stepOp stB opC

/-- Counterexample to claim C1 as stated: after a successful withdraw of
escrow [1], re-creating with the same order id succeeds, resets the
withdrawn flag to false, and a second withdraw on the same identifier
succeeds — so the flag does return to false and more than one withdraw
succeeds for one identifier. -/
theorem C1_counterexample :
    (withdraw envW stA [1] [7] 2).1 = Except.ok () ∧
    (get_escrow stB [1]).map Escrow.withdrawn = some true ∧
    (create_escrow envW stB 1 2 5 [7] 100 3 [1]).1 = Except.ok [1] ∧
    (get_escrow stC [1]).map Escrow.withdrawn = some false ∧
    (withdraw envW stC [1] [7] 2).1 = Except.ok () :=
  ⟨rfl, rfl, rfl, rfl, rfl⟩

/-- Claim C1 as amended: provided no create_escrow call computes an
identifier aliasing the record in question (no order id reuse), the flags
withdrawn and cancelled are never both true, each flag is permanent once
set, and after a successful withdraw (resp. cancel) every later withdraw
or cancel on that identifier fails with AlreadyWithdrawn
(resp. AlreadyCancelled), so at most one resolution ever succeeds. -/
theorem C1_lifecycle_amended :
    (∀ (st : LedgerState) (ops : List Op), exclusiveFlags st →
      exclusiveFlags (runOps st ops)) ∧
    (∀ (st : LedgerState) (ops : List Op) (id : List Nat),
      (∀ op ∈ ops, ¬opCreates op id) → wSet st id → wSet (runOps st ops) id) ∧
    (∀ (st : LedgerState) (ops : List Op) (id : List Nat),
      (∀ op ∈ ops, ¬opCreates op id) → cSet st id → cSet (runOps st ops) id) ∧
    (∀ (env : ChainEnv) (st : LedgerState) (id sec : List Nat) (rcv snd : Nat),
      wSet st id →
      (withdraw env st id sec rcv).1 = Except.error HTLCError.AlreadyWithdrawn ∧
      (cancel env st id snd).1 = Except.error HTLCError.AlreadyWithdrawn) ∧
    (∀ (env : ChainEnv) (st : LedgerState) (id sec : List Nat) (rcv snd : Nat),
      cOnly st id →
      (withdraw env st id sec rcv).1 = Except.error HTLCError.AlreadyCancelled ∧
      (cancel env st id snd).1 = Except.error HTLCError.AlreadyCancelled) ∧
    (∀ (env : ChainEnv) (st : LedgerState) (id sec : List Nat) (rcv : Nat)
      (mid : List Op) (env2 : ChainEnv) (sec2 : List Nat) (rcv2 snd2 : Nat),
      (withdraw env st id sec rcv).1 = Except.ok () →
      (∀ op ∈ mid, ¬opCreates op id) →
      (withdraw env2 (runOps (stepOp st (Op.withdrawOp env id sec rcv)) mid)
        id sec2 rcv2).1 = Except.error HTLCError.AlreadyWithdrawn ∧
      (cancel env2 (runOps (stepOp st (Op.withdrawOp env id sec rcv)) mid)
        id snd2).1 = Except.error HTLCError.AlreadyWithdrawn) ∧
    (∀ (env : ChainEnv) (st : LedgerState) (id : List Nat) (snd : Nat)
      (mid : List Op) (env2 : ChainEnv) (sec2 : List Nat) (rcv2 snd2 : Nat),
      (cancel env st id snd).1 = Except.ok () →
      (∀ op ∈ mid, ¬opCreates op id) →
      (withdraw env2 (runOps (stepOp st (Op.cancelOp env id snd)) mid)
        id sec2 rcv2).1 = Except.error HTLCError.AlreadyCancelled ∧
      (cancel env2 (runOps (stepOp st (Op.cancelOp env id snd)) mid)
        id snd2).1 = Except.error HTLCError.AlreadyCancelled) := by
  have hblockW : ∀ e : Escrow, e.withdrawn = true →
      ¬(e.withdrawn = false ∧ e.cancelled = false) := by
    intro e he
    simp [he]
  have hblockC : ∀ e : Escrow, e.cancelled = true →
      ¬(e.withdrawn = false ∧ e.cancelled = false) := by
    intro e he
    simp [he]
  have hblockCO : ∀ e : Escrow, e.withdrawn = false ∧ e.cancelled = true →
      ¬(e.withdrawn = false ∧ e.cancelled = false) := by
    intro e he
    simp [he.2]
  refine ⟨?_, ?_, ?_, ?_, ?_, ?_, ?_⟩
  · intro st ops hst
    exact runOps_exclusiveFlags ops st hst
  · intro st ops id hnc h
    exact runOps_preserve_record (fun e => e.withdrawn = true) hblockW ops st id hnc h
  · intro st ops id hnc h
    exact runOps_preserve_record (fun e => e.cancelled = true) hblockC ops st id hnc h
  · intro env st id sec rcv snd h
    obtain ⟨e, hget, hw⟩ := h
    exact ⟨withdraw_on_withdrawn env st id sec rcv e hget hw,
      cancel_on_withdrawn env st id snd e hget hw⟩
  · intro env st id sec rcv snd h
    obtain ⟨e, hget, hw, hc⟩ := h
    exact ⟨withdraw_on_cancelled env st id sec rcv e hget hw hc,
      cancel_on_cancelled env st id snd e hget hw hc⟩
  · intro env st id sec rcv mid env2 sec2 rcv2 snd2 hok hnc
    obtain ⟨e, hget, hw⟩ :=
      runOps_preserve_record (fun e => e.withdrawn = true) hblockW mid
        (stepOp st (Op.withdrawOp env id sec rcv)) id hnc
        (withdraw_ok_wSet env st id sec rcv hok)
    exact ⟨withdraw_on_withdrawn env2 _ id sec2 rcv2 e hget hw,
      cancel_on_withdrawn env2 _ id snd2 e hget hw⟩
  · intro env st id snd mid env2 sec2 rcv2 snd2 hok hnc
    obtain ⟨e, hget, hwc⟩ :=
      runOps_preserve_record (fun e => e.withdrawn = false ∧ e.cancelled = true)
        hblockCO mid (stepOp st (Op.cancelOp env id snd)) id hnc
        (cancel_ok_cOnly env st id snd hok)
    exact ⟨withdraw_on_cancelled env2 _ id sec2 rcv2 e hget hwc.1 hwc.2,
      cancel_on_cancelled env2 _ id snd2 e hget hwc.1 hwc.2⟩

/-- Witness for C1 (amended) at a concrete input: in the state right after
the successful withdraw of the fixture trace, both withdraw and cancel on
identifier [1] fail with AlreadyWithdrawn. -/
theorem C1_lifecycle_amended_witness :
    (withdraw envL stB [1] [7] 2).1 = Except.error HTLCError.AlreadyWithdrawn ∧
    (cancel envL stB [1] 1).1 = Except.error HTLCError.AlreadyWithdrawn :=
  C1_lifecycle_amended.2.2.2.1 envL stB [1] [7] 2 1
    ⟨{ escW with timelock := 100, withdrawn := true }, by decide, rfl⟩

end HTLC
